import Mathlib

/-!
Verification development for the frontclaw plugin-orchestration core.

Shallow embedding of the permission guard, system-call handler, plugin
loader, worker bridge, secure memory envelope, orchestrator pipelines and
chat driver, translated from the TypeScript sources, together with
theorems settling the specification claims.

JavaScript strings are modelled as Lean `String` / `List Char`; machine
time stamps as `Nat` milliseconds; thrown exceptions as `Except`.
-/

deriving instance DecidableEq for Except

set_option maxRecDepth 8000

namespace Frontclaw

/-- The single-quote character, written via its code point. -/
def squote : Char := Char.ofNat 39

/-- One-character string holding a single quote. -/
def squoteS : String := String.mk [squote]

/-- JavaScript `\s` (ASCII part plus NBSP and BOM), as used by the
`trim`, `\s+` and split operations in the sources. -/
def isJsWs (c : Char) : Bool :=
  c = ' ' || c = '\t' || c = '\n' || c = '\r' ||
  c = Char.ofNat 11 || c = Char.ofNat 12 ||
  c = Char.ofNat 0xa0 || c = Char.ofNat 0xfeff

/-- JavaScript `\w`: ASCII letters, digits and underscore. -/
def isWordChar (c : Char) : Bool :=
  c.isAlpha || c.isDigit || c = '_'

/-- First character class of the identifier pattern `[a-zA-Z_]`. -/
def isIdentStart (c : Char) : Bool :=
  c.isAlpha || c = '_'

/-- Identifier-continuation class `[\w$]`. -/
def isIdentChar (c : Char) : Bool :=
  isWordChar c || c = '$'

/-- Drop whitespace from both ends of a character list (JS `String.trim`). -/
def trimWsChars (l : List Char) : List Char :=
  ((l.dropWhile isJsWs).reverse.dropWhile isJsWs).reverse

/-- JS `value.trim()`. -/
def jsTrim (s : String) : String :=
  String.mk (trimWsChars s.data)

/-- JS `value.toUpperCase()` restricted to ASCII, as used on HTTP verbs. -/
def jsUpper (s : String) : String :=
  String.mk (s.data.map Char.toUpper)

/-- `PermissionDeniedError` from `bridge/permission-guard.ts`: carries the
plugin id, the permission path and a human-readable action. -/
structure PermissionDeniedError where
  pluginId : String
  permission : String
  action : String
deriving DecidableEq, Repr

/-- The `message` built by the `PermissionDeniedError` constructor. -/
def PermissionDeniedError.message (e : PermissionDeniedError) : String :=
  "Plugin " ++ squoteS ++ e.pluginId ++ squoteS ++ " denied: " ++
    e.permission ++ " permission required for " ++ e.action

/-- `DBPermission.access` values. -/
inductive DBAccess where
  | readOnly
  | readWrite
deriving DecidableEq, Repr

/-- `DBPermission` from the plugin SDK permission schema. -/
structure DBPermission where
  tables : List String
  access : DBAccess
deriving DecidableEq, Repr

/-- `APIPermission` from the plugin SDK permission schema. -/
structure APIPermission where
  routes : List String
  methods : Option (List String)
deriving DecidableEq, Repr

/-- `memory` grant from the plugin SDK permission schema. -/
structure MemoryPermission where
  read : Option (List String)
  write : Option (List String)
deriving DecidableEq, Repr

/-- The slice of a loaded plugin manifest consulted by the permission
guard paths under study (identifier plus the db/api/memory/skills
grants). -/
structure LoadedManifestPerms where
  id : String
  db : Option DBPermission := none
  api : Option APIPermission := none
  memory : Option MemoryPermission := none
  skills : Option (List String) := none
deriving DecidableEq, Repr

/-! ## Rate limiter (`bridge/syscall-handler.ts`, lines 13-50) -/

/-- `SYSCALL_WINDOW_MS`. -/
def SYSCALL_WINDOW_MS : Nat := 60000

/-- `MAX_SYSCALLS_PER_WINDOW`. -/
def MAX_SYSCALLS_PER_WINDOW : Nat := 300

/-- Per-plugin quota entry stored in `pluginQuotaState`. -/
structure PluginQuotaState where
  count : Nat
  resetAt : Nat
deriving DecidableEq, Repr

/-- `SysCallRateLimitError` (code `SYSCALL_RATE_LIMITED`). -/
structure SysCallRateLimitError where
  pluginId : String
  limit : Nat
deriving DecidableEq, Repr

/-- `enforceSysCallRateLimit`, for one plugin id: the state is the map
entry for that plugin (`none` when absent), `now` is `Date.now()`.
Returns the updated entry or throws the rate-limit error. -/
def enforceSysCallRateLimit (pluginId : String) (state : Option PluginQuotaState)
    (now : Nat) : Except SysCallRateLimitError PluginQuotaState :=
  match state with
  | none => .ok ⟨1, now + SYSCALL_WINDOW_MS⟩
  | some st =>
    if now ≥ st.resetAt then
      .ok ⟨1, now + SYSCALL_WINDOW_MS⟩
    else if st.count ≥ MAX_SYSCALLS_PER_WINDOW then
      .error ⟨pluginId, MAX_SYSCALLS_PER_WINDOW⟩
    else
      .ok ⟨st.count + 1, st.resetAt⟩

/-- Run a sequence of sys-calls (given by their times) through the rate
limiter, threading the quota entry. -/
def runRateLimitedCalls (pluginId : String) (state : Option PluginQuotaState) :
    List Nat → Except SysCallRateLimitError (Option PluginQuotaState)
  | [] => .ok state
  | t :: ts =>
    match enforceSysCallRateLimit pluginId state t with
    | .error e => .error e
    | .ok st2 => runRateLimitedCalls pluginId (some st2) ts

theorem runRateLimitedCalls_within_window (pluginId : String) (R : Nat) :
    ∀ (ts : List Nat) (c : Nat), 0 < c → c + ts.length ≤ MAX_SYSCALLS_PER_WINDOW →
    (∀ t ∈ ts, t < R) →
    runRateLimitedCalls pluginId (some ⟨c, R⟩) ts = .ok (some ⟨c + ts.length, R⟩) := by
  intro ts
  induction ts with
  | nil => intro c _ _ _; simp [runRateLimitedCalls]
  | cons t ts ih =>
    intro c hc hle hmem
    have ht : t < R := hmem t (by simp)
    simp only [MAX_SYSCALLS_PER_WINDOW, List.length_cons] at hle
    have hcnt : ¬ c ≥ MAX_SYSCALLS_PER_WINDOW := by
      simp only [MAX_SYSCALLS_PER_WINDOW]
      omega
    have step : enforceSysCallRateLimit pluginId (some ⟨c, R⟩) t = .ok ⟨c + 1, R⟩ := by
      simp [enforceSysCallRateLimit, Nat.not_le.mpr ht, hcnt]
    have htail := ih (c + 1) (by omega)
      (by simp only [MAX_SYSCALLS_PER_WINDOW]; omega)
      (fun x hx => hmem x (by simp [hx]))
    have harith : c + (ts.length + 1) = c + 1 + ts.length := by omega
    simp only [runRateLimitedCalls, step, htail, List.length_cons, harith]

/-- C4. Starting from an empty quota entry, a first sys-call at time `t0`
followed by 299 further calls, all strictly inside the 60-second window
that the first call opened, are all admitted and leave the counter at
300; a 301st call still inside the window throws `SYSCALL_RATE_LIMITED`;
and a call at or after the window's expiry is admitted again, with the
counter lazily reset to 1. -/
theorem syscall_rate_limit_behavior (pluginId : String) (t0 : Nat) (ts : List Nat)
    (t301 tLate : Nat)
    (hlen : ts.length = 299)
    (hin : ∀ t ∈ ts, t < t0 + 60000)
    (h301 : t301 < t0 + 60000)
    (hlate : tLate ≥ t0 + 60000) :
    runRateLimitedCalls pluginId none (t0 :: ts) = .ok (some ⟨300, t0 + 60000⟩) ∧
    enforceSysCallRateLimit pluginId (some ⟨300, t0 + 60000⟩) t301 =
      .error ⟨pluginId, 300⟩ ∧
    enforceSysCallRateLimit pluginId (some ⟨300, t0 + 60000⟩) tLate =
      .ok ⟨1, tLate + 60000⟩ := by
  refine ⟨?_, ?_, ?_⟩
  · have h0 : enforceSysCallRateLimit pluginId none t0 = .ok ⟨1, t0 + SYSCALL_WINDOW_MS⟩ := by
      simp [enforceSysCallRateLimit]
    have hrest := runRateLimitedCalls_within_window pluginId (t0 + 60000) ts 1
      (by omega) (by simp [hlen, MAX_SYSCALLS_PER_WINDOW]) hin
    simp only [runRateLimitedCalls, h0]
    simpa [SYSCALL_WINDOW_MS, hlen] using hrest
  · simp [enforceSysCallRateLimit, Nat.not_le.mpr h301, MAX_SYSCALLS_PER_WINDOW]
  · simp [enforceSysCallRateLimit, SYSCALL_WINDOW_MS, hlate]

/-- Witness for C4 at a concrete run: plugin "F", first call at time 0,
then 299 calls at time 5, an over-quota call at time 6, and a call at
exactly 60000. -/
theorem syscall_rate_limit_behavior_witness :
    (List.replicate 299 5).length = 299 ∧
    runRateLimitedCalls "F" none (0 :: List.replicate 299 5) = .ok (some ⟨300, 0 + 60000⟩) ∧
    enforceSysCallRateLimit "F" (some ⟨300, 0 + 60000⟩) 6 = .error ⟨"F", 300⟩ ∧
    enforceSysCallRateLimit "F" (some ⟨300, 0 + 60000⟩) 60000 = .ok ⟨1, 60000 + 60000⟩ := by
  have h := syscall_rate_limit_behavior "F" 0 (List.replicate 299 5) 6 60000
    (List.length_replicate 299 5)
    (fun t ht => by rw [List.eq_of_mem_replicate ht]; omega)
    (by omega) (by omega)
  exact ⟨List.length_replicate 299 5, h.1, h.2.1, h.2.2⟩

/-! ## Character-level string operations (JS `startsWith` / `endsWith` /
`slice(0, -n)` work on code units; modelled at `Char` granularity) -/

/-- JS `s.startsWith(p)`. -/
def strStartsWith (s p : String) : Bool :=
  p.data.isPrefixOf s.data

/-- JS `s.endsWith(p)`. -/
def strEndsWith (s p : String) : Bool :=
  p.data.reverse.isPrefixOf s.data.reverse

/-- JS `s.slice(0, -n)` for `n ≥ 1` (also `String.dropRight`). -/
def strDropRight (s : String) (n : Nat) : String :=
  String.mk (s.data.take (s.data.length - n))

theorem isPrefixOf_take (l : List Char) (k : Nat) :
    List.isPrefixOf (l.take k) l = true := by
  induction l generalizing k with
  | nil => cases k <;> rfl
  | cons c cs ih =>
    cases k with
    | zero => rfl
    | succ k => simpa [List.take, List.isPrefixOf] using ih k

theorem strStartsWith_strDropRight (s : String) (n : Nat) :
    strStartsWith s (strDropRight s n) = true := by
  simp only [strStartsWith, strDropRight]
  exact isPrefixOf_take s.data (s.data.length - n)

/-! ## Memory-key permission matcher (`bridge/permission-guard.ts`,
`matchesKey` / `checkMemoryRead` / `checkMemoryWrite`) -/

/-- `PermissionGuard.matchesKey`. -/
def matchesKey (key : String) (patterns : List String) : Bool :=
  let normalizedKey := jsTrim key
  patterns.any fun pat =>
    if pat = "*" then true
    else if strEndsWith pat ":*" then strStartsWith normalizedKey (strDropRight pat 2)
    else normalizedKey == pat

/-- `PermissionGuard.checkMemoryRead`. -/
def checkMemoryRead (m : LoadedManifestPerms) (key : String) :
    Except PermissionDeniedError Unit :=
  let memoryPerm := (m.memory.bind (·.read)).getD []
  if memoryPerm.length = 0 then
    .error ⟨m.id, "memory.read", "read memory " ++ squoteS ++ key ++ squoteS⟩
  else if ¬ matchesKey key memoryPerm then
    .error ⟨m.id, "memory.read", "read memory " ++ squoteS ++ key ++ squoteS⟩
  else
    .ok ()

/-- `PermissionGuard.checkMemoryWrite`. -/
def checkMemoryWrite (m : LoadedManifestPerms) (key : String) :
    Except PermissionDeniedError Unit :=
  let memoryPerm := (m.memory.bind (·.write)).getD []
  if memoryPerm.length = 0 then
    .error ⟨m.id, "memory.write", "write memory " ++ squoteS ++ key ++ squoteS⟩
  else if ¬ matchesKey key memoryPerm then
    .error ⟨m.id, "memory.write", "write memory " ++ squoteS ++ key ++ squoteS⟩
  else
    .ok ()

/-- The matcher exactly as claim C7 words it: an entry of the form
`prefix:*` requires the key to start with the literal prefix
*including the colon* (i.e. the entry minus only the trailing star). -/
def claimKeyAllowed (key : String) (patterns : List String) : Bool :=
  patterns.any fun pat =>
    pat == "*" ||
    (strEndsWith pat ":*" && strStartsWith key (strDropRight pat 1)) ||
    pat == key

/-- The matcher as the code actually behaves: the required prefix is the
entry minus the trailing `:*`, so the colon is not part of it, and the
key is trimmed first. -/
def amendedKeyAllowed (key : String) (patterns : List String) : Bool :=
  patterns.any fun pat =>
    pat == "*" ||
    (strEndsWith pat ":*" && strStartsWith key (strDropRight pat 2)) ||
    pat == key

/-- Claim C7 as stated is false: with read grant `["profile:*"]` the key
`"profilex"` (no colon) is allowed by the code, while the claim's
colon-inclusive prefix matcher rejects it. -/
theorem memory_key_matcher_counterexample :
    matchesKey "profilex" ["profile:*"] = true ∧
    checkMemoryRead
      { id := "E",
        memory := some ⟨some ["profile:*"], some ["profile:*"]⟩ }
      "profilex" = .ok () ∧
    claimKeyAllowed "profilex" ["profile:*"] = false := by
  refine ⟨by decide, by decide, by decide⟩

theorem matchesKey_entry_eq (k pat : String) :
    (if pat = "*" then true
     else if strEndsWith pat ":*" then strStartsWith k (strDropRight pat 2)
     else k == pat) =
    (pat == "*" || (strEndsWith pat ":*" && strStartsWith k (strDropRight pat 2)) ||
      pat == k) := by
  by_cases h1 : pat = "*"
  · subst h1; simp
  · have h1b : (pat == "*") = false := by simp [h1]
    rw [if_neg h1]
    cases h2 : strEndsWith pat ":*" with
    | false => simp [h1b, h2, beq_iff_eq, eq_comm]
    | true =>
      cases h3 : strStartsWith k (strDropRight pat 2) with
      | false =>
        have hne : (pat == k) = false := by
          simp only [beq_eq_false_iff_ne, ne_eq]
          intro he
          rw [← he] at h3
          exact absurd (strStartsWith_strDropRight pat 2) (by simp [h3])
        simp [h1b, h2, h3, hne]
      | true => simp [h1b, h2, h3]

theorem matchesKey_eq_amended (key : String) (patterns : List String) :
    matchesKey key patterns = amendedKeyAllowed (jsTrim key) patterns := by
  simp only [matchesKey, amendedKeyAllowed]
  congr 1
  funext pat
  exact matchesKey_entry_eq (jsTrim key) pat

/-- C7 amended: the key is first trimmed; it is then allowed iff the
grant list is non-empty and some entry is `*`, or ends in `:*` with the
trimmed key starting with the entry minus that two-character suffix
(colon excluded from the required prefix), or equals the trimmed key.
An empty or absent grant denies. The concrete spec scenario still holds:
`profile:42` is readable and `other:1` is denied under `["profile:*"]`. -/
theorem memory_key_matcher_amended :
    (∀ (m : LoadedManifestPerms) (key : String),
      checkMemoryRead m key = .ok () ↔
        ((m.memory.bind (·.read)).getD [] ≠ [] ∧
          amendedKeyAllowed (jsTrim key) ((m.memory.bind (·.read)).getD []) = true)) ∧
    checkMemoryRead
      { id := "E", memory := some ⟨some ["profile:*"], some ["profile:*"]⟩ }
      "profile:42" = .ok () ∧
    checkMemoryRead
      { id := "E", memory := some ⟨some ["profile:*"], some ["profile:*"]⟩ }
      "other:1" =
      .error ⟨"E", "memory.read", "read memory " ++ squoteS ++ "other:1" ++ squoteS⟩ := by
  refine ⟨?_, by decide, by decide⟩
  intro m key
  simp only [checkMemoryRead, matchesKey_eq_amended]
  constructor
  · intro h
    by_cases hlen : ((m.memory.bind (·.read)).getD []).length = 0
    · simp [hlen] at h
    · refine ⟨fun hnil => hlen (by simp [hnil]), ?_⟩
      by_cases hmatch : amendedKeyAllowed (jsTrim key) ((m.memory.bind (·.read)).getD []) = true
      · exact hmatch
      · simp [hlen, hmatch] at h
  · rintro ⟨hne, hmatch⟩
    have hlen : ¬ ((m.memory.bind (·.read)).getD []).length = 0 := by
      simpa [List.length_eq_zero] using hne
    simp [hlen, hmatch]

/-! ## Tool-result preview (`toPreview` and the `tool_result` emission in
the chat driver) -/

/-- `toPreview(value, maxLength)` applied to the text form of the value
(JS `slice(0, maxLength)` then a three-character ellipsis). The call
sites use the default `maxLength = 400`. -/
def toPreview (text : String) (maxLength : Nat) : String :=
  if text.length ≤ maxLength then text
  else String.mk (text.data.take maxLength) ++ "..."

/-- The `tool_result` event payload built by `createToolExecutor`. -/
structure ToolResultEvent where
  toolName : String
  source : String
  durationMs : Nat
  resultPreview : String
deriving DecidableEq, Repr

/-- Emission of a `tool_result` event: `resultPreview` is
`toPreview(text)` with the default length bound 400. -/
def emitToolResult (toolName source : String) (durationMs : Nat) (text : String) :
    ToolResultEvent :=
  { toolName, source, durationMs, resultPreview := toPreview text 400 }

/-- Claim C8 as stated is false: a 401-character tool result yields a
`resultPreview` of 403 characters (400-character slice plus `"..."`),
which exceeds 400. -/
theorem toPreview_replicate_401 :
    (toPreview (String.mk (List.replicate 401 'a')) 400).length = 403 := by
  rw [toPreview]
  rw [if_neg (by
    show ¬ (List.replicate 401 'a').length ≤ 400
    simp [List.length_replicate])]
  show ((List.replicate 401 'a').take 400 ++ "...".data).length = 403
  rw [List.length_append, List.length_take, List.length_replicate]
  rfl

theorem tool_result_preview_counterexample :
    (emitToolResult "t" "tool" 1 (String.mk (List.replicate 401 'a'))).resultPreview.length
      = 403 ∧
    ¬ (emitToolResult "t" "tool" 1
        (String.mk (List.replicate 401 'a'))).resultPreview.length ≤ 400 := by
  constructor
  · exact toPreview_replicate_401
  · intro h
    rw [show (emitToolResult "t" "tool" 1
        (String.mk (List.replicate 401 'a'))).resultPreview.length = 403 from
      toPreview_replicate_401] at h
    omega

/-- C8 amended: the `resultPreview` of every emitted `tool_result` event
is at most 403 characters — the text itself when it fits in 400
characters, otherwise its 400-character prefix followed by a
three-character ellipsis. -/
theorem tool_result_preview_bound (toolName source : String) (durationMs : Nat)
    (text : String) :
    (emitToolResult toolName source durationMs text).resultPreview.length ≤ 403 := by
  show (toPreview text 400).length ≤ 403
  rw [toPreview]
  by_cases h : text.length ≤ 400
  · rw [if_pos h]; omega
  · rw [if_neg h]
    show ((text.data.take 400) ++ "...".data).length ≤ 403
    rw [List.length_append, List.length_take]
    have hmin : min 400 text.data.length ≤ 400 := Nat.min_le_left _ _
    have hdots : ("...".data).length = 3 := rfl
    omega

/-! ## SQL auditor (`bridge/syscall-handler.ts`, lines 52-119)

The JS regular-expression passes are modelled as character scanners with
the same backtracking semantics. -/

/-- Body scanner for the quoted-literal regex `'(?:''|[^'])*'`: given the
text after an opening quote, returns the remainder after the regex's
closing quote, or `none` when the regex cannot close. A doubled quote is
preferred as an escape (alternation order), falling back — as the regex
backtracks — to closing at the first quote of the pair. -/
def scanQuote : List Char → Option (List Char)
  | [] => none
  | c :: rest =>
    if c = squote then
      match rest with
      | c2 :: rest2 =>
        if c2 = squote then (scanQuote rest2).orElse (fun _ => some rest)
        else some rest
      | [] => some rest
    else scanQuote rest

/-- `stripQuotedSegments` body: replace every match of the quoted-literal
regex with a single space. Structural recursion on a fuel argument; every
step consumes at least one input character (a successful `scanQuote`
consumes the opening and closing quotes), so `length + 1` fuel is never
exhausted and the fuel never changes the result. -/
def stripQuotedGo : Nat → List Char → List Char
  | 0, _ => []
  | _, [] => []
  | fuel + 1, c :: rest =>
    if c = squote then
      match scanQuote rest with
      | some rest2 => ' ' :: stripQuotedGo fuel rest2
      | none => c :: stripQuotedGo fuel rest
    else c :: stripQuotedGo fuel rest

def stripQuotedChars (l : List Char) : List Char :=
  stripQuotedGo (l.length + 1) l

/-- `stripQuotedSegments(sql)`. -/
def stripQuotedSegments (sql : String) : String :=
  String.mk (stripQuotedChars sql.data)

/-- Skip to the end of the current line (exclusive), as `.*$` does under
the `m` flag. -/
def dropLine : List Char → List Char
  | [] => []
  | c :: rest => if c = '\n' then c :: rest else dropLine rest

/-- Replace every line comment (two dashes to end of line, the `gm`
regex pass) with a single space (fueled; each step consumes at least one
character). -/
def stripLineGo : Nat → List Char → List Char
  | 0, _ => []
  | _, [] => []
  | fuel + 1, c :: rest =>
    if c = '-' then
      match rest with
      | c2 :: rest2 =>
        if c2 = '-' then ' ' :: stripLineGo fuel (dropLine rest2)
        else c :: stripLineGo fuel (c2 :: rest2)
      | [] => [c]
    else c :: stripLineGo fuel rest

def stripLineComments (l : List Char) : List Char :=
  stripLineGo (l.length + 1) l

/-- Find the first `*/` (the lazy `[\s\S]*?`), returning the remainder
after it. -/
def findBlockEnd : List Char → Option (List Char)
  | [] => none
  | c :: rest =>
    if c = '*' then
      match rest with
      | c2 :: rest2 => if c2 = '/' then some rest2 else findBlockEnd (c2 :: rest2)
      | [] => none
    else findBlockEnd rest

/-- Replace every lazily-terminated block comment with a single space
(fueled; each step consumes at least one character). -/
def stripBlockGo : Nat → List Char → List Char
  | 0, _ => []
  | _, [] => []
  | fuel + 1, c :: rest =>
    if c = '/' then
      match rest with
      | c2 :: rest2 =>
        if c2 = '*' then
          match findBlockEnd rest2 with
          | some rest3 => ' ' :: stripBlockGo fuel rest3
          | none => c :: stripBlockGo fuel (c2 :: rest2)
        else c :: stripBlockGo fuel (c2 :: rest2)
      | [] => [c]
    else c :: stripBlockGo fuel rest

def stripBlockComments (l : List Char) : List Char :=
  stripBlockGo (l.length + 1) l

/-- Replace every maximal whitespace run with one space (fueled; each
step consumes at least one character). -/
def collapseWsGo : Nat → List Char → List Char
  | 0, _ => []
  | _, [] => []
  | fuel + 1, c :: rest =>
    if isJsWs c then ' ' :: collapseWsGo fuel (rest.dropWhile isJsWs)
    else c :: collapseWsGo fuel rest

def collapseWs (l : List Char) : List Char :=
  collapseWsGo (l.length + 1) l

/-- `normalizeSqlForAnalysis`: strip quoted literals, then `--` line
comments, then `/* */` block comments, collapse whitespace, trim. -/
def normalizeSqlForAnalysis (sql : String) : String :=
  String.mk
    (trimWsChars
      (collapseWs
        (stripBlockComments
          (stripLineComments
            (stripQuotedChars sql.data)))))

/-- Case-insensitive literal match (the `i` flag); returns the remainder. -/
def matchCI : List Char → List Char → Option (List Char)
  | [], l => some l
  | _ :: _, [] => none
  | w :: ws, c :: rest => if w.toLower = c.toLower then matchCI ws rest else none

/-- `\\s+`: require at least one whitespace character and (greedily)
consume the whole run. -/
def skipWs1 : List Char → Option (List Char)
  | [] => none
  | c :: rest => if isJsWs c then some (rest.dropWhile isJsWs) else none

/-- Match a `\\b`-anchored keyword sequence (keywords separated by `\s+`,
with a final `\s+` before the capture group). -/
def matchSeq : List (List Char) → List Char → Option (List Char)
  | [], l => some l
  | w :: ws, l =>
    match matchCI w l with
    | none => none
    | some l1 =>
      match skipWs1 l1 with
      | none => none
      | some l2 => matchSeq ws l2

/-- The capture group
`([` + "`" + `"]?[a-zA-Z_][\w$]*[` + "`" + `"]?)`: an optionally quoted
identifier segment. Returns (captured text, remainder). -/
def parseQuotedIdent : List Char → Option (List Char × List Char)
  | [] => none
  | c :: rest =>
    if c = '`' || c = '"' then
      match rest with
      | c2 :: rest2 =>
        if isIdentStart c2 then
          let ids := rest2.takeWhile isIdentChar
          let rem := rest2.dropWhile isIdentChar
          match rem with
          | q :: rem2 =>
            if q = '`' || q = '"' then some (c :: c2 :: (ids ++ [q]), rem2)
            else some (c :: c2 :: ids, rem)
          | [] => some (c :: c2 :: ids, [])
        else none
      | [] => none
    else if isIdentStart c then
      let ids := rest.takeWhile isIdentChar
      let rem := rest.dropWhile isIdentChar
      match rem with
      | q :: rem2 =>
        if q = '`' || q = '"' then some (c :: (ids ++ [q]), rem2)
        else some (c :: ids, rem)
      | [] => some (c :: ids, [])
    else none

/-- The full capture group: an identifier segment optionally followed by
`.` and a second segment. -/
def parseGroup (l : List Char) : Option (List Char × List Char) :=
  match parseQuotedIdent l with
  | none => none
  | some (seg1, rem) =>
    match rem with
    | c3 :: rest3 =>
      if c3 = '.' then
        match parseQuotedIdent rest3 with
        | some (seg2, rem2) => some (seg1 ++ c3 :: seg2, rem2)
        | none => some (seg1, rem)
      else some (seg1, rem)
    | [] => some (seg1, rem)

/-- Scan for all matches of a boundary-anchored keyword pattern with
the `g` flag: `atB` records whether the current position sits at a word
boundary (previous character not a word character; true at the start).
After a match the scan resumes at the match end. Returns the captured
groups in match order (fueled; a match consumes at least the keyword). -/
def scanCapturesGo (kws : List (List Char)) : Nat → Bool → List Char → List (List Char)
  | 0, _, _ => []
  | _, _, [] => []
  | fuel + 1, atB, c :: rest =>
    if atB then
      match (matchSeq kws (c :: rest)).bind parseGroup with
      | some (cap, rem) =>
        cap :: scanCapturesGo kws fuel (! isWordChar (cap.getLastD ' ')) rem
      | none => scanCapturesGo kws fuel (! isWordChar c) rest
    else scanCapturesGo kws fuel (! isWordChar c) rest

def scanCaptures (kws : List (List Char)) (l : List Char) : List (List Char) :=
  scanCapturesGo kws (l.length + 1) true l

/-- `extractTableName`: strip quote characters, take the final dotted
segment, trim, and validate against `^[a-zA-Z_][\w$]*$`. -/
def extractTableName (raw : List Char) : Option String :=
  let noQuotes := raw.filter (fun c => ! (c = '"' || c = squote || c = '`'))
  let segs := noQuotes.splitOn '.'
  let t := trimWsChars (segs.getLastD [])
  match t with
  | [] => none
  | c :: cs =>
    if isIdentStart c && cs.all isIdentChar then some (String.mk (c :: cs)) else none

/-- The five keyword patterns of `extractTables` (the `DELETE\s+FROM`
pattern is a two-word sequence). -/
def sqlKeywordPatterns : List (List (List Char)) :=
  [["FROM".data], ["JOIN".data], ["INTO".data], ["UPDATE".data],
   ["DELETE".data, "FROM".data]]

/-- `extractTables(sql)`: normalized SQL, all pattern captures, validated
table names deduplicated in first-seen order (the JS `Set`). -/
def extractTables (sql : String) : List String :=
  let normalizedSql := (normalizeSqlForAnalysis sql).data
  let caps := sqlKeywordPatterns.foldl
    (fun acc kws => acc ++ scanCaptures kws normalizedSql) []
  caps.foldl
    (fun acc cap =>
      match extractTableName cap with
      | some t => if acc.contains t then acc else acc ++ [t]
      | none => acc) []

/-- The write-classification keywords. -/
def writeKeywords : List (List Char) :=
  ["INSERT".data, "UPDATE".data, "DELETE".data, "CREATE".data, "ALTER".data,
   "DROP".data, "TRUNCATE".data, "REPLACE".data]

/-- Does some write keyword match here, with a word boundary after it? -/
def hasWriteKeywordAt (l : List Char) : Bool :=
  writeKeywords.any fun w =>
    match matchCI w l with
    | some [] => true
    | some (c :: _) => ! isWordChar c
    | none => false

/-- Scan for `\b(INSERT|UPDATE|...)\b` anywhere (the `test` call). -/
def scanWriteKeyword : Bool → List Char → Bool
  | _, [] => false
  | atB, c :: rest =>
    (atB && hasWriteKeywordAt (c :: rest)) || scanWriteKeyword (! isWordChar c) rest

/-- `isWriteQuery(sql)`. -/
def isWriteQuery (sql : String) : Bool :=
  scanWriteKeyword true (normalizeSqlForAnalysis sql).data

/-- `validateSingleStatement`: reject semicolon-separated multi-statement
SQL after normalization. -/
def validateSingleStatement (sql : String) (pluginId : String) :
    Except PermissionDeniedError Unit :=
  let normalizedSql := (normalizeSqlForAnalysis sql).data
  let statements := ((normalizedSql.splitOn ';').map trimWsChars).filter (· ≠ [])
  if statements.length > 1 then
    .error ⟨pluginId, "db.query", "execute multiple SQL statements"⟩
  else .ok ()

/-- `PermissionGuard.checkDBAccess`. -/
def checkDBAccess (m : LoadedManifestPerms) (table : String) (write : Bool) :
    Except PermissionDeniedError Unit :=
  match m.db with
  | none => .error ⟨m.id, "db", "access table " ++ squoteS ++ table ++ squoteS⟩
  | some dbPerm =>
    if ! (dbPerm.tables.contains table || dbPerm.tables.contains "*") then
      .error ⟨m.id, "db.tables", "access table " ++ squoteS ++ table ++ squoteS⟩
    else if write && (dbPerm.access == DBAccess.readOnly) then
      .error ⟨m.id, "db.access", "write to table " ++ squoteS ++ table ++ squoteS⟩
    else .ok ()

/-- Guard every extracted table (the `for` loop in the `db.query` arm). -/
def checkTablesAccess (m : LoadedManifestPerms) (write : Bool) :
    List String → Except PermissionDeniedError Unit
  | [] => .ok ()
  | t :: ts =>
    match checkDBAccess m t write with
    | .error e => .error e
    | .ok () => checkTablesAccess m write ts

/-- The `db.query` arm of `handleSysCall`: single-statement validation,
table extraction, write classification, guard; `.ok ()` means the query
is forwarded to the DB backend. -/
def handleDbQuery (m : LoadedManifestPerms) (sql : String) :
    Except PermissionDeniedError Unit :=
  match validateSingleStatement sql m.id with
  | .error e => .error e
  | .ok () =>
    let tables := extractTables sql
    let writeQuery := isWriteQuery sql
    if tables.length = 0 then checkDBAccess m "*" writeQuery
    else checkTablesAccess m writeQuery tables

/-- Plugin D of spec scenario 4: `db.tables=["items"], access:"read-only"`. -/
def pluginD : LoadedManifestPerms :=
  { id := "D", db := some ⟨["items"], .readOnly⟩ }

/-- C3. With `db.tables=["items"]` and read-only access:
a semicolon-joined double statement is denied as multi-statement SQL, an
`UPDATE` is denied as a write on read-only access, and a `SELECT` whose
semicolon sits inside a block comment's neighbour literal passes the
guard and is forwarded. -/
theorem sql_guard_scenarios :
    handleDbQuery pluginD "SELECT * FROM items; DELETE FROM items;" =
      .error ⟨"D", "db.query", "execute multiple SQL statements"⟩ ∧
    handleDbQuery pluginD "UPDATE items SET x=1" =
      .error ⟨"D", "db.access", "write to table " ++ squoteS ++ "items" ++ squoteS⟩ ∧
    handleDbQuery pluginD
      ("SELECT * FROM /* c */ items WHERE title=" ++ squoteS ++ "x;y" ++ squoteS) =
      .ok () := by
  refine ⟨by decide, by decide, by decide⟩

/-! ## API route permission (`bridge/permission-route-utils.ts` and
`PermissionGuard.checkAPIRoute`) -/

/-- Result of `parseRouteSpec`. -/
structure RouteSpec where
  path : String
  methods : Option (List String)
deriving DecidableEq, Repr

/-- The `[A-Za-z,]` class of the verb-list group. -/
def isVerbChar (c : Char) : Bool :=
  c.isAlpha || c = ','

/-- `parseRouteSpec(route)`: split an optional leading comma-separated
verb list from the pattern using the anchored regex; when the regex does
not match, the whole trimmed spec is the path and no verbs are set. -/
def parseRouteSpec (route : String) : RouteSpec :=
  let trimmed := jsTrim route
  let cs := trimmed.data
  let verbRun := cs.takeWhile isVerbChar
  let afterVerbs := cs.dropWhile isVerbChar
  let wsRun := afterVerbs.takeWhile isJsWs
  let pathPart := afterVerbs.dropWhile isJsWs
  if verbRun.length = 0 || wsRun.length = 0 || pathPart.length = 0 ||
      pathPart.contains '\n' then
    ⟨trimmed, none⟩
  else
    let methods :=
      ((verbRun.splitOn ',').map (fun m => jsUpper (jsTrim (String.mk m)))).filter
        (· ≠ "")
    ⟨jsTrim (String.mk pathPart), if methods.length > 0 then some methods else none⟩

/-- `routeMatches(path, routePath)`: exact match after trailing-slash
normalization, or prefix match when the route ends in a slash-star. -/
def routeMatches (path routePath : String) : Bool :=
  let normalizedPath :=
    if path.length > 1 && strEndsWith path "/" then strDropRight path 1 else path
  let normalizedRoute :=
    if routePath.length > 1 && strEndsWith routePath "/" then strDropRight routePath 1
    else routePath
  if strEndsWith normalizedRoute "/*" then
    strStartsWith normalizedPath (strDropRight normalizedRoute 2)
  else normalizedPath == normalizedRoute

/-- The per-spec test inside `checkAPIRoute`'s `routes.some(...)`. -/
def routeSpecAllows (apiPerm : APIPermission) (path method : String)
    (route : String) : Bool :=
  let spec := parseRouteSpec route
  if ! routeMatches path spec.path then false
  else
    match spec.methods with
    | some ms =>
      if ms.length > 0 then ms.contains (jsUpper method)
      else
        match apiPerm.methods with
        | some tops => if tops.length > 0 then tops.contains method else true
        | none => true
    | none =>
      match apiPerm.methods with
      | some tops => if tops.length > 0 then tops.contains method else true
      | none => true

/-- `PermissionGuard.checkAPIRoute(path, method)`, including the trailing
top-level-methods check that runs after a route has matched. -/
def checkAPIRoute (m : LoadedManifestPerms) (path method : String) :
    Except PermissionDeniedError Unit :=
  match m.api with
  | none => .error ⟨m.id, "api", "handle route " ++ method ++ " " ++ path⟩
  | some apiPerm =>
    if ! apiPerm.routes.any (routeSpecAllows apiPerm path method) then
      .error ⟨m.id, "api.routes", "handle route " ++ path⟩
    else
      match apiPerm.methods with
      | some tops =>
        if tops.length > 0 && ! tops.contains method then
          .error ⟨m.id, "api.methods", "use method " ++ method⟩
        else .ok ()
      | none => .ok ()

/-- A plugin granting route `"POST /hook"` with top-level
`methods = ["GET"]`. -/
def pluginRouteDemo : LoadedManifestPerms :=
  { id := "p", api := some ⟨["POST /hook"], some ["GET"]⟩ }

/-- C5. The route spec `"POST /hook"` parses to verbs `["POST"]` and its
pattern matches `/hook`, so per the claim a `POST /hook` request must be
authorized regardless of the top-level methods list; the code
nevertheless denies it through the unconditional trailing
top-level-methods check (`api.methods`), contradicting its own comment
that the check applies only when the route spec had no methods. -/
theorem api_route_method_override_bug :
    parseRouteSpec "POST /hook" = ⟨"/hook", some ["POST"]⟩ ∧
    routeMatches "/hook" "/hook" = true ∧
    routeSpecAllows ⟨["POST /hook"], some ["GET"]⟩ "/hook" "POST" "POST /hook" = true ∧
    checkAPIRoute pluginRouteDemo "/hook" "POST" =
      .error ⟨"p", "api.methods", "use method POST"⟩ := by
  refine ⟨by decide, by decide, by decide, by decide⟩

/-! ## Plugin loader (`loader/plugin-loader.ts`) -/

/-- The manifest fields relevant to `loadAll`'s filtering and ordering. -/
structure PluginManifestLite where
  id : String
  priority : Nat
  enabled : Bool
deriving DecidableEq, Repr

/-- One candidate subdirectory, with the filesystem and validation facts
`loadPlugin` consults, in check order: manifest file present, readme
present, manifest JSON parses and schema-validates (`parsed`), entry file
exists. -/
structure PluginCandidate where
  hasManifestFile : Bool
  hasReadme : Bool
  parsed : Option PluginManifestLite
  entryExists : Bool
deriving DecidableEq, Repr

/-- `PluginLoader.loadPlugin`: `none` models a thrown `PluginLoadError`. -/
def loadPlugin (c : PluginCandidate) : Option PluginManifestLite :=
  if ! c.hasManifestFile then none
  else if ! c.hasReadme then none
  else
    match c.parsed with
    | none => none
    | some m => if ! c.entryExists then none else some m

/-- The discovery loop of `loadAll`: per-candidate errors are swallowed,
deny-listed and disabled manifests are skipped, the rest are collected in
directory order. -/
def loadAllLoop : List PluginCandidate → List String → List PluginManifestLite
  | [], _ => []
  | c :: cs, disabled =>
    match loadPlugin c with
    | none => loadAllLoop cs disabled
    | some m =>
      if disabled.contains m.id then loadAllLoop cs disabled
      else if ! m.enabled then loadAllLoop cs disabled
      else m :: loadAllLoop cs disabled

/-- Stable insertion step for the priority sort. -/
def insertByPriority (m : PluginManifestLite) :
    List PluginManifestLite → List PluginManifestLite
  | [] => [m]
  | y :: ys =>
    if y.priority < m.priority then y :: insertByPriority m ys
    else m :: y :: ys

/-- `loadedPlugins.sort((a, b) => a.priority - b.priority)`: JS `sort` is
stable (ES2019), so it is modelled as a stable insertion sort on the
priority alone. -/
def sortByPriority : List PluginManifestLite → List PluginManifestLite
  | [] => []
  | x :: xs => insertByPriority x (sortByPriority xs)

/-- `PluginLoader.loadAll` over the candidate list in directory order. -/
def loadAll (cands : List PluginCandidate) (disabled : List String) :
    List PluginManifestLite :=
  sortByPriority (loadAllLoop cands disabled)

/-- Lexicographic (code-point) comparison of identifiers, used to state
the claim's tie-break order. -/
def idLeChars : List Char → List Char → Bool
  | [], _ => true
  | _ :: _, [] => false
  | a :: as, b :: bs =>
    if a = b then idLeChars as bs else decide (a.toNat < b.toNat)

/-- The sort order claim C6 asserts: ascending priority with the
identifier breaking ties. -/
def sortedByPriorityThenId : List PluginManifestLite → Bool
  | [] => true
  | [_] => true
  | x :: y :: rest =>
    (decide (x.priority < y.priority) ||
      (decide (x.priority = y.priority) && idLeChars x.id.data y.id.data)) &&
    sortedByPriorityThenId (y :: rest)

/-- Fully valid, enabled candidate with id `a-plugin`, priority 5. -/
def candA : PluginCandidate := ⟨true, true, some ⟨"a-plugin", 5, true⟩, true⟩

/-- Fully valid, enabled candidate with id `b-plugin`, priority 5. -/
def candB : PluginCandidate := ⟨true, true, some ⟨"b-plugin", 5, true⟩, true⟩

/-- C6's tie-break clause is false: with `b-plugin` discovered before
`a-plugin`, both priority 5, the returned order keeps directory order
`[b-plugin, a-plugin]` instead of breaking the tie by identifier. -/
theorem loader_tiebreak_counterexample :
    (loadAll [candB, candA] []).map (·.id) = ["b-plugin", "a-plugin"] ∧
    sortedByPriorityThenId (loadAll [candB, candA] []) = false := by
  refine ⟨by decide, by decide⟩

/-- The claim's filter, written as a direct composition: survivors in
discovery order. -/
def loadSurvivors (cands : List PluginCandidate) (disabled : List String) :
    List PluginManifestLite :=
  cands.filterMap fun c =>
    (loadPlugin c).bind fun m =>
      if ! disabled.contains m.id && m.enabled then some m else none

theorem loadAllLoop_eq_survivors (disabled : List String) :
    ∀ cands, loadAllLoop cands disabled = loadSurvivors cands disabled := by
  intro cands
  induction cands with
  | nil => rfl
  | cons c cs ih =>
    cases hl : loadPlugin c with
    | none => simp [loadAllLoop, loadSurvivors, List.filterMap_cons, hl, ih]
    | some m =>
      cases hdis : disabled.contains m.id with
      | true =>
        have hmem : m.id ∈ disabled := by simpa using hdis
        simp [loadAllLoop, loadSurvivors, List.filterMap_cons, hl, hdis, hmem, ih]
      | false =>
        have hmem : m.id ∉ disabled := by simpa using hdis
        cases hen : m.enabled with
        | false =>
          simp [loadAllLoop, loadSurvivors, List.filterMap_cons, hl, hdis, hmem, hen, ih]
        | true =>
          simp [loadAllLoop, loadSurvivors, List.filterMap_cons, hl, hdis, hmem, hen, ih]

theorem mem_insertByPriority (m a : PluginManifestLite) :
    ∀ l, a ∈ insertByPriority m l ↔ a = m ∨ a ∈ l := by
  intro l
  induction l with
  | nil => simp [insertByPriority]
  | cons y ys ih =>
    rw [insertByPriority]
    by_cases h : y.priority < m.priority
    · rw [if_pos h]
      simp only [List.mem_cons, ih]
      tauto
    · rw [if_neg h]
      simp only [List.mem_cons]

theorem mem_sortByPriority (a : PluginManifestLite) :
    ∀ l, a ∈ sortByPriority l ↔ a ∈ l := by
  intro l
  induction l with
  | nil => simp [sortByPriority]
  | cons x xs ih =>
    rw [sortByPriority]
    rw [mem_insertByPriority]
    simp [ih]

theorem insertByPriority_sorted (m : PluginManifestLite) :
    ∀ l, l.Pairwise (fun a b => a.priority ≤ b.priority) →
    (insertByPriority m l).Pairwise (fun a b => a.priority ≤ b.priority) := by
  intro l
  induction l with
  | nil => intro _; simp [insertByPriority]
  | cons y ys ih =>
    intro hp
    rw [List.pairwise_cons] at hp
    rw [insertByPriority]
    by_cases h : y.priority < m.priority
    · rw [if_pos h]
      rw [List.pairwise_cons]
      constructor
      · intro b hb
        rw [mem_insertByPriority] at hb
        cases hb with
        | inl hb => rw [hb]; omega
        | inr hb => exact hp.1 b hb
      · exact ih hp.2
    · rw [if_neg h]
      rw [List.pairwise_cons]
      constructor
      · intro b hb
        cases List.mem_cons.mp hb with
        | inl hb => rw [hb]; omega
        | inr hb => have := hp.1 b hb; omega
      · rw [List.pairwise_cons]
        exact ⟨hp.1, hp.2⟩

theorem sortByPriority_sorted :
    ∀ l, (sortByPriority l).Pairwise (fun a b => a.priority ≤ b.priority) := by
  intro l
  induction l with
  | nil => simp [sortByPriority]
  | cons x xs ih =>
    rw [sortByPriority]
    exact insertByPriority_sorted x _ ih

/-- C6 amended: `loadAll` returns exactly the candidates whose manifest
file and readme exist, whose manifest validates, whose entry file
exists, whose enabled flag is true and that are not deny-listed; the
result is the stable priority sort of the survivors in discovery order —
ascending priority, equal priorities keeping directory order, with no
identifier tie-break. -/
theorem pluginLoader_loadAll_amended (cands : List PluginCandidate)
    (disabled : List String) :
    loadAll cands disabled = sortByPriority (loadSurvivors cands disabled) ∧
    (loadAll cands disabled).Pairwise (fun a b => a.priority ≤ b.priority) ∧
    (∀ m, m ∈ loadAll cands disabled ↔
      ∃ c ∈ cands, loadPlugin c = some m ∧
        disabled.contains m.id = false ∧ m.enabled = true) := by
  refine ⟨?_, ?_, ?_⟩
  · rw [loadAll, loadAllLoop_eq_survivors]
  · exact sortByPriority_sorted _
  · intro m
    rw [loadAll, mem_sortByPriority, loadAllLoop_eq_survivors, loadSurvivors]
    rw [List.mem_filterMap]
    constructor
    · rintro ⟨c, hc, hx⟩
      cases hl : loadPlugin c with
      | none => rw [hl] at hx; simp at hx
      | some m2 =>
        rw [hl] at hx
        simp only [Option.some_bind] at hx
        by_cases hcond : (! disabled.contains m2.id && m2.enabled) = true
        · rw [if_pos hcond] at hx
          simp only [Option.some.injEq] at hx
          subst hx
          simp only [Bool.and_eq_true, Bool.not_eq_eq_eq_not, Bool.not_true] at hcond
          exact ⟨c, hc, hl, hcond.1, hcond.2⟩
        · rw [if_neg hcond] at hx
          simp at hx
    · rintro ⟨c, hc, hl, hdis, hen⟩
      refine ⟨c, hc, ?_⟩
      rw [hl]
      simp only [Option.some_bind]
      have hcond : (! disabled.contains m.id && m.enabled) = true := by
        rw [hdis, hen]
        rfl
      rw [if_pos hcond]

/-! ## Worker bridge sys-call responses (`bridge/worker-bridge.ts`,
`handleSysCall`, and `createErrorResponse` from the plugin SDK RPC
module) -/

/-- The `error` field of an `RPCErrorResponse`: `{ code, message,
stack }`. -/
structure RPCErrorBody where
  code : String
  message : String
  stack : Option String
deriving DecidableEq, Repr

/-- `RPCErrorResponse` (type `ERROR`, `success: false`). -/
structure RPCErrorResponse where
  id : String
  error : RPCErrorBody
  timestamp : Nat
deriving DecidableEq, Repr

/-- `RPCSuccessResponse` (type `RESPONSE`, `success: true`); the result
payload is modelled as a string. -/
structure RPCSuccessResponse where
  id : String
  result : String
  timestamp : Nat
deriving DecidableEq, Repr

/-- A message the bridge posts back to the worker. -/
inductive PostedMessage where
  | ok (m : RPCSuccessResponse)
  | err (m : RPCErrorResponse)
deriving DecidableEq, Repr

/-- `createErrorResponse(requestId, code, message, stack)`. -/
def createErrorResponse (requestId code message : String)
    (stack : Option String) (now : Nat) : RPCErrorResponse :=
  { id := requestId, error := { code := code, message := message, stack := stack },
    timestamp := now }

/-- `createSuccessResponse(requestId, result)`. -/
def createSuccessResponse (requestId result : String) (now : Nat) :
    RPCSuccessResponse :=
  { id := requestId, result := result, timestamp := now }

/-- What the sys-call handler invocation did: resolved with a result, or
threw an error carrying an optional `code`, a `message` and an optional
`stack`. -/
inductive SysCallOutcome where
  | ok (result : String)
  | thrown (code : Option String) (message : String) (stack : Option String)
deriving DecidableEq, Repr

/-- `PluginWorkerBridge.handleSysCall`: post `createSuccessResponse` on
success, and on failure post
`createErrorResponse(id, err.code || "SYS_CALL_ERROR", err.message,
err.stack)`. -/
def bridgeHandleSysCall (requestId : String) (outcome : SysCallOutcome)
    (now : Nat) : PostedMessage :=
  match outcome with
  | .ok result => .ok (createSuccessResponse requestId result now)
  | .thrown code message stack =>
    .err (createErrorResponse requestId (code.getD "SYS_CALL_ERROR") message stack now)

/-- A populated stack text, as V8 produces for a thrown error. -/
def demoStackText : String :=
  "Error: denied\n    at handleSysCall (syscall-handler.ts)"

/-- C1 is false on the code: when the handler rejects a sys-call with an
error whose `stack` is populated, the RESPONSE_ERR the bridge posts back
to the worker carries that stack text in its `error.stack` field — the
stack is forwarded, not stripped. -/
theorem bridge_forwards_stack_to_worker :
    bridgeHandleSysCall "req-1"
      (.thrown (some "PERMISSION_DENIED") "denied" (some demoStackText)) 1000 =
      .err (createErrorResponse "req-1" "PERMISSION_DENIED" "denied"
        (some demoStackText) 1000) ∧
    (createErrorResponse "req-1" "PERMISSION_DENIED" "denied"
      (some demoStackText) 1000).error.stack = some demoStackText ∧
    (createErrorResponse "req-1" "PERMISSION_DENIED" "denied"
      (some demoStackText) 1000).error.stack ≠ none := by
  refine ⟨rfl, rfl, by decide⟩

/-! ## Secure memory envelope (`secure-memory-service.ts`) -/

/-- The cryptographic primitives the service uses, abstracted: UTF-8
JSON serialization of the value type, AES-256-GCM under a fixed
encryption key (`enc iv plaintext = (ciphertext, tag)`; `dec` checks the
tag), and HMAC-SHA256 under a fixed signing key. Bytes are `List Nat`. -/
structure SecureCrypto (V : Type) where
  serialize : V → List Nat
  deserialize : List Nat → Option V
  enc : List Nat → List Nat → (List Nat × List Nat)
  dec : List Nat → List Nat → List Nat → Option (List Nat)
  hmac : List Nat → List Nat

/-- The stored envelope `{v:1, iv, tag, ct, hmac}` (base64 and the JSON
wrapper elided; tampering is modelled at field granularity). -/
structure SecureEnvelope where
  iv : List Nat
  tag : List Nat
  ct : List Nat
  hmacField : List Nat
deriving DecidableEq, Repr

/-- `SecureMemoryService.encrypt`: serialize, encrypt under a fresh IV,
and MAC `iv ‖ tag ‖ ciphertext`. -/
def secureEncrypt {V : Type} (C : SecureCrypto V) (iv : List Nat) (v : V) :
    SecureEnvelope :=
  let plaintext := C.serialize v
  let pair := C.enc iv plaintext
  { iv := iv, tag := pair.2, ct := pair.1, hmacField := C.hmac (iv ++ pair.2 ++ pair.1) }

/-- Every way a `get` can end. `signatureMismatch` models the thrown
`Error("Memory signature mismatch")`. -/
inductive SecureGetOutcome (V : Type) where
  | value (v : V)
  | nullResult
  | signatureMismatch
  | gcmAuthFailure
  | parseFailure
deriving DecidableEq, Repr

/-- `SecureMemoryService.decrypt`: recompute the HMAC over
`iv ‖ tag ‖ ciphertext` and compare; on mismatch throw; otherwise
GCM-decrypt (the auth tag can still fail) and JSON-parse. -/
def secureDecrypt {V : Type} (C : SecureCrypto V) (e : SecureEnvelope) :
    SecureGetOutcome V :=
  let expected := C.hmac (e.iv ++ e.tag ++ e.ct)
  if expected ≠ e.hmacField then .signatureMismatch
  else
    match C.dec e.iv e.tag e.ct with
    | none => .gcmAuthFailure
    | some plaintext =>
      match C.deserialize plaintext with
      | none => .parseFailure
      | some v => .value v

/-- `SecureMemoryService.get`: `null` when the inner store has nothing,
otherwise decrypt what it returned. -/
def secureGet {V : Type} (C : SecureCrypto V) (stored : Option SecureEnvelope) :
    SecureGetOutcome V :=
  match stored with
  | none => .nullResult
  | some e => secureDecrypt C e

/-- C2. For a key that was set through the envelope and is unexpired (so
the inner store returns a stored envelope), and under the MAC trust
model — the stored envelope is either exactly the one written, or a
tampered one whose `hmac` field no longer matches the MAC of its
`iv ‖ tag ‖ ciphertext` (an adversary without the signing key cannot
forge a matching MAC) — `get` either returns the value that was set or
fails with the signature-mismatch error; no other outcome is possible.
Requires GCM round-tripping and JSON round-tripping for the serializable
value. -/
theorem secure_memory_get_dichotomy {V : Type} (C : SecureCrypto V)
    (hRound : ∀ iv pt, C.dec iv (C.enc iv pt).2 (C.enc iv pt).1 = some pt)
    (hSer : ∀ v, C.deserialize (C.serialize v) = some v)
    (iv : List Nat) (v : V) (stored : Option SecureEnvelope)
    (hStored : stored = some (secureEncrypt C iv v) ∨
      (∃ e, stored = some e ∧ C.hmac (e.iv ++ e.tag ++ e.ct) ≠ e.hmacField)) :
    secureGet C stored = .value v ∨ secureGet C stored = .signatureMismatch := by
  rcases hStored with h | ⟨e, he, hbad⟩
  · left
    subst h
    show secureDecrypt C (secureEncrypt C iv v) = SecureGetOutcome.value v
    rw [secureDecrypt, secureEncrypt]
    simp only
    rw [if_neg (by simp)]
    simp [hRound iv (C.serialize v), hSer v]
  · right
    subst he
    have hbad2 : C.hmac (e.iv ++ (e.tag ++ e.ct)) ≠ e.hmacField := by
      rw [← List.append_assoc]
      exact hbad
    show secureDecrypt C e = SecureGetOutcome.signatureMismatch
    simp [secureDecrypt, hbad2]

/-- A concrete executable instantiation of the crypto interface: values
are naturals, serialization is a singleton byte, encryption shifts bytes
by one with a fixed tag, the MAC is the length byte. -/
def toyCrypto : SecureCrypto Nat :=
  { serialize := fun n => [n],
    deserialize := fun l =>
      match l with
      | [n] => some n
      | _ => none,
    enc := fun _iv pt => (pt.map (· + 1), [7]),
    dec := fun _iv tag ct => if tag = [7] then some (ct.map (· - 1)) else none,
    hmac := fun l => [l.length] }

theorem toyCrypto_round (iv pt : List Nat) :
    toyCrypto.dec iv (toyCrypto.enc iv pt).2 (toyCrypto.enc iv pt).1 = some pt := by
  show (if ([7] : List Nat) = [7] then some ((pt.map (· + 1)).map (· - 1)) else none) =
    some pt
  rw [if_pos rfl, List.map_map]
  have hcomp : ((fun x => x - 1) ∘ fun x => x + 1 : Nat → Nat) = id := by
    funext x
    simp
  rw [hcomp, List.map_id]

/-- Witness for C2 at a concrete honest store: value 42 under IV
`[1,2,3]` comes back as `.value 42` (or mismatch). -/
theorem secure_memory_get_dichotomy_witness :
    secureGet toyCrypto (some (secureEncrypt toyCrypto [1, 2, 3] 42)) =
      .value 42 ∨
    secureGet toyCrypto (some (secureEncrypt toyCrypto [1, 2, 3] 42)) =
      .signatureMismatch :=
  secure_memory_get_dichotomy toyCrypto toyCrypto_round (fun _ => rfl)
    [1, 2, 3] 42 _ (Or.inl rfl)

/-! ## Tool and skill execution pipelines
(`orchestrator/pipelines` — `executeToolPipeline`, `executeSkillPipeline`,
`parseNamespacedName`, and `PermissionGuard.checkSkillAccess`) -/

/-- `ToolResult` / `SkillResult`: `{success, result?, error?}` (the two
SDK interfaces have the same shape; result payloads are strings). -/
structure ToolResult where
  success : Bool
  result : Option String
  error : Option String
deriving DecidableEq, Repr

/-- How an awaited `bridge.callHook` invocation ends: resolved with a
value (`undefined` modelled as `none`), or rejected — covering a hook
that threw, a `HOOK_TIMEOUT` rejection, and `WORKER_STOPPED`; the caught
JS error is reduced to its message. -/
inductive HookOutcome where
  | returns (r : Option ToolResult)
  | throwsErr (message : String)
deriving DecidableEq, Repr

/-- The runtime context the pipelines read: which plugin ids have a live
bridge, the loaded manifests, and the behavior of the `executeTool` /
`executeSkill` hook calls (plugin id, local name, arguments). -/
structure PipelineRuntime where
  bridgeIds : List String
  manifests : List LoadedManifestPerms
  toolHook : String → String → List (String × String) → HookOutcome
  skillHook : String → String → List (String × String) → HookOutcome

/-- JS `value.split("__")` at character level. -/
def splitDunder : List Char → List (List Char)
  | [] => [[]]
  | '_' :: '_' :: rest => [] :: splitDunder rest
  | c :: rest =>
    match splitDunder rest with
    | seg :: segs => (c :: seg) :: segs
    | [] => [[c]]

/-- JS `parts.join("__")` at character level. -/
def joinDunder : List (List Char) → List Char
  | [] => []
  | [seg] => seg
  | seg :: rest => seg ++ '_' :: '_' :: joinDunder rest

/-- `parseNamespacedName(value)`: first `__`-segment is the plugin id
(must be non-empty), the rest re-joined is the local name. -/
def parseNamespacedName (value : String) : Option (String × String) :=
  match splitDunder value.data with
  | [] => none
  | pluginId :: rest =>
    if pluginId.isEmpty then none
    else some (String.mk pluginId, String.mk (joinDunder rest))

/-- `PermissionGuard.checkSkillAccess(skillName)`. -/
def checkSkillAccess (m : LoadedManifestPerms) (skillName : String) :
    Except PermissionDeniedError Unit :=
  match m.skills with
  | none =>
    .error ⟨m.id, "skills", "expose skill " ++ squoteS ++ skillName ++ squoteS⟩
  | some skillsPerm =>
    if skillsPerm.length = 0 then
      .error ⟨m.id, "skills", "expose skill " ++ squoteS ++ skillName ++ squoteS⟩
    else
      let parts := splitDunder skillName.data
      let baseName :=
        if parts.length > 1 then String.mk (joinDunder parts.tail) else skillName
      let hasWildcard := skillsPerm.contains "*"
      let hasExact := skillsPerm.contains skillName || skillsPerm.contains baseName
      let hasEntryMatch := skillsPerm.any fun entry =>
        strEndsWith entry "__*" && strStartsWith skillName (strDropRight entry 2)
      if ! (hasWildcard || hasExact || hasEntryMatch) then
        .error ⟨m.id, "skills", "expose skill " ++ squoteS ++ skillName ++ squoteS⟩
      else .ok ()

/-- `executeToolPipeline(runtime, toolName, args)`. -/
def executeToolPipeline (rt : PipelineRuntime) (toolName : String)
    (args : List (String × String)) : ToolResult :=
  match parseNamespacedName toolName with
  | none => ⟨false, none, some ("Invalid tool name: " ++ toolName)⟩
  | some (pluginId, localName) =>
    if ! rt.bridgeIds.contains pluginId then
      ⟨false, none, some ("Plugin " ++ pluginId ++ " not found")⟩
    else
      match rt.toolHook pluginId localName args with
      | .throwsErr msg => ⟨false, none, some msg⟩
      | .returns none => ⟨false, none, some "Tool returned no result"⟩
      | .returns (some r) => r

/-- `executeSkillPipeline(runtime, skillName, args)`: additionally looks
up the manifest and runs the skill permission guard inside the `try`, so
a denial is caught and reported as `success: false` with the error's
message. -/
def executeSkillPipeline (rt : PipelineRuntime) (skillName : String)
    (args : List (String × String)) : ToolResult :=
  match parseNamespacedName skillName with
  | none => ⟨false, none, some ("Invalid skill name: " ++ skillName)⟩
  | some (pluginId, localName) =>
    if ! rt.bridgeIds.contains pluginId then
      ⟨false, none, some ("Plugin " ++ pluginId ++ " not found")⟩
    else
      match rt.manifests.find? (fun m => m.id == pluginId) with
      | none => ⟨false, none, some ("Plugin " ++ pluginId ++ " not found")⟩
      | some manifest =>
        match checkSkillAccess manifest localName with
        | .error e => ⟨false, none, some e.message⟩
        | .ok () =>
          match rt.skillHook pluginId localName args with
          | .throwsErr msg => ⟨false, none, some msg⟩
          | .returns none => ⟨false, none, some "Skill returned no result"⟩
          | .returns (some r) => r

/-- C9. Both pipelines are total functions into the tagged
`{success, result|error}` shape — exceptions never escape — and each
failure mode yields `success: false` with a message: an unparsable name,
a missing bridge, a missing manifest, a denied skill permission, a hook
rejection (error or timeout), and a hook resolving to nothing. A hook
resolving to a result returns that result unchanged. -/
theorem pipeline_execution_total (rt : PipelineRuntime) (name : String)
    (args : List (String × String)) :
    (parseNamespacedName name = none →
      executeToolPipeline rt name args =
        ⟨false, none, some ("Invalid tool name: " ++ name)⟩ ∧
      executeSkillPipeline rt name args =
        ⟨false, none, some ("Invalid skill name: " ++ name)⟩) ∧
    (∀ pid ln, parseNamespacedName name = some (pid, ln) →
      (rt.bridgeIds.contains pid = false →
        executeToolPipeline rt name args =
          ⟨false, none, some ("Plugin " ++ pid ++ " not found")⟩ ∧
        executeSkillPipeline rt name args =
          ⟨false, none, some ("Plugin " ++ pid ++ " not found")⟩) ∧
      (rt.bridgeIds.contains pid = true →
        (∀ msg, rt.toolHook pid ln args = .throwsErr msg →
          executeToolPipeline rt name args = ⟨false, none, some msg⟩) ∧
        (rt.toolHook pid ln args = .returns none →
          executeToolPipeline rt name args =
            ⟨false, none, some "Tool returned no result"⟩) ∧
        (∀ r, rt.toolHook pid ln args = .returns (some r) →
          executeToolPipeline rt name args = r) ∧
        (rt.manifests.find? (fun m => m.id == pid) = none →
          executeSkillPipeline rt name args =
            ⟨false, none, some ("Plugin " ++ pid ++ " not found")⟩) ∧
        (∀ mf, rt.manifests.find? (fun m => m.id == pid) = some mf →
          (∀ e, checkSkillAccess mf ln = .error e →
            executeSkillPipeline rt name args = ⟨false, none, some e.message⟩) ∧
          (checkSkillAccess mf ln = .ok () →
            (∀ msg, rt.skillHook pid ln args = .throwsErr msg →
              executeSkillPipeline rt name args = ⟨false, none, some msg⟩) ∧
            (rt.skillHook pid ln args = .returns none →
              executeSkillPipeline rt name args =
                ⟨false, none, some "Skill returned no result"⟩) ∧
            (∀ r, rt.skillHook pid ln args = .returns (some r) →
              executeSkillPipeline rt name args = r))))) := by
  constructor
  · intro hp
    exact ⟨by simp [executeToolPipeline, hp], by simp [executeSkillPipeline, hp]⟩
  · intro pid ln hp
    constructor
    · intro hb
      have hmem : pid ∉ rt.bridgeIds := by simpa using hb
      exact ⟨by simp [executeToolPipeline, hp, hb, hmem],
        by simp [executeSkillPipeline, hp, hb, hmem]⟩
    · intro hb
      have hmem : pid ∈ rt.bridgeIds := by simpa using hb
      refine ⟨?_, ?_, ?_, ?_, ?_⟩
      · intro msg hh
        simp [executeToolPipeline, hp, hb, hmem, hh]
      · intro hh
        simp [executeToolPipeline, hp, hb, hmem, hh]
      · intro r hh
        simp [executeToolPipeline, hp, hb, hmem, hh]
      · intro hf
        simp [executeSkillPipeline, hp, hb, hmem, hf]
      · intro mf hf
        constructor
        · intro e hg
          simp [executeSkillPipeline, hp, hb, hmem, hf, hg]
        · intro hg
          refine ⟨?_, ?_, ?_⟩
          · intro msg hh
            simp [executeSkillPipeline, hp, hb, hmem, hf, hg, hh]
          · intro hh
            simp [executeSkillPipeline, hp, hb, hmem, hf, hg, hh]
          · intro r hh
            simp [executeSkillPipeline, hp, hb, hmem, hf, hg, hh]

/-- Runtime for the witness: one plugin `p` with a bridge and a manifest
granting no skills, whose skill hook would succeed if reached. -/
def rtDemo : PipelineRuntime :=
  { bridgeIds := ["p"],
    manifests := [{ id := "p" }],
    toolHook := fun _ _ _ => .returns none,
    skillHook := fun _ _ _ => .returns (some ⟨true, some "ok", none⟩) }

/-- Witness for C9: at the concrete runtime, invoking skill `p__s` is
denied by the guard (no skills grant) and the pipeline reports it as a
tagged failure carrying the `PermissionDeniedError` message, and the tool
pipeline reports the hook's empty resolution as a tagged failure. -/
theorem pipeline_execution_total_witness :
    executeSkillPipeline rtDemo "p__s" [] =
      ⟨false, none,
        some (PermissionDeniedError.message ⟨"p", "skills",
          "expose skill " ++ squoteS ++ "s" ++ squoteS⟩)⟩ ∧
    executeToolPipeline rtDemo "p__s" [] =
      ⟨false, none, some "Tool returned no result"⟩ := by
  have h := pipeline_execution_total rtDemo "p__s" []
  have h2 := (h.2 "p" "s" (by decide)).2 (by decide)
  constructor
  · exact (h2.2.2.2.2 { id := "p" } (by decide)).1
      ⟨"p", "skills", "expose skill " ++ squoteS ++ "s" ++ squoteS⟩ (by decide)
  · exact h2.2.1 rfl

/-! ## Chat endpoint ordering (`POST /api/v1/chat` handler) -/

/-- The `error` field of a failed `PipelineResult`. -/
structure PipelineError where
  pluginId : String
  code : String
  message : String
deriving DecidableEq, Repr

/-- `PipelineResult<string>` as returned by `orchestrator.processPrompt`. -/
structure PipelineResultS where
  success : Bool
  result : Option String
  interceptedBy : Option String
  error : Option PipelineError
deriving DecidableEq, Repr

/-- The request body fields the persistence-ordering claim touches. -/
structure ChatRequestBody where
  message : String
  conversationId : Option String
  title : Option String
deriving DecidableEq, Repr

/-- A persisted conversation row, as far as the handler reads it. -/
structure Conversation where
  id : String
  title : Option String
deriving DecidableEq, Repr

/-- The persistence and pipeline effects the handler performs, in
program order. -/
inductive ChatEvent where
  | createConversation (title : String)
  | createUserMessage (content : String)
  | touchConversation
  | runProcessPrompt (prompt : String)
  | setConversationTitle (title : String)
  | createAssistantMessage (content : String)
deriving DecidableEq, Repr

/-- How the handler answers (the paths after the prompt pipeline that
this claim concerns; `proceedToLLM` stands for the rest of the
request). -/
inductive ChatResponse where
  | badRequest
  | notFound
  | blocked403 (code : Option String) (blockedBy : Option String)
  | intercepted200 (response : String)
  | proceedToLLM
deriving DecidableEq, Repr

/-- `hasConversationTitle(title)`. -/
def hasConversationTitle (title : Option String) : Bool :=
  match title with
  | some t => (jsTrim t).length > 0
  | none => false

/-- The `POST /api/v1/chat` handler from request parsing to the
prompt-pipeline outcome, as a trace of effects plus the response.
`deriveTitle` abstracts `deriveConversationTitle`; `lookup` is what
`getConversation(body.conversationId)` returns. -/
def chatHandler (deriveTitle : String → String) (body : ChatRequestBody)
    (lookup : Option Conversation) (promptResult : PipelineResultS) :
    List ChatEvent × ChatResponse :=
  let message := jsTrim body.message
  if message.length = 0 then ([], .badRequest)
  else
    let createdTitle :=
      match body.title with
      | some t => if t.length = 0 then deriveTitle message else t
      | none => deriveTitle message
    let resolved : List ChatEvent × Option Conversation :=
      match body.conversationId with
      | some _ => ([], lookup)
      | none => ([.createConversation createdTitle], some ⟨"new", some createdTitle⟩)
    match resolved with
    | (ev0, none) => (ev0, .notFound)
    | (ev0, some conversation) =>
      let ev1 := ev0 ++ [.createUserMessage message, .touchConversation]
      let ev2 := ev1 ++ [.runProcessPrompt message]
      let ev3 :=
        if ! hasConversationTitle conversation.title then
          let promptForTitle :=
            if promptResult.success then
              match promptResult.result with
              | some r => if r.length = 0 then message else r
              | none => message
            else message
          ev2 ++ [.setConversationTitle (deriveTitle promptForTitle)]
        else ev2
      if ! promptResult.success then
        (ev3, .blocked403 (promptResult.error.map (·.code))
          (promptResult.error.map (·.pluginId)))
      else
        match promptResult.interceptedBy with
        | some _ =>
          (ev3 ++ [.createAssistantMessage (promptResult.result.getD "undefined"),
            .touchConversation],
           .intercepted200 (promptResult.result.getD "undefined"))
        | none => (ev3, .proceedToLLM)

/-- Does a `setConversationTitle` effect occur strictly before the
`runProcessPrompt` effect, as claim C10 asserts? -/
def titleSetBeforePipeline (tr : List ChatEvent) : Bool :=
  match tr.findIdx? (fun e => match e with
      | .setConversationTitle _ => true
      | _ => false),
    tr.findIdx? (fun e => match e with
      | .runProcessPrompt _ => true
      | _ => false) with
  | some i, some j => decide (i < j)
  | _, _ => false

/-- Request to an existing, untitled conversation. -/
def c10Body : ChatRequestBody := ⟨"hello world", some "c1", none⟩

/-- The stored conversation has no title. -/
def c10Conv : Conversation := ⟨"c1", none⟩

/-- The prompt pipeline fails (plugin A raises SECURITY_VIOLATION). -/
def c10Blocked : PipelineResultS :=
  ⟨false, none, none, some ⟨"A", "SECURITY_VIOLATION", "blocked"⟩⟩

/-- C10's stated ordering is false on the code: for an existing untitled
conversation whose prompt pipeline fails, the title is derived and
persisted *after* `processPrompt` runs (and before the 403 is returned),
not before the pipeline; the title-set effect is present but does not
precede the pipeline effect. -/
theorem chat_title_order_counterexample :
    chatHandler (fun s => s) c10Body (some c10Conv) c10Blocked =
      ([.createUserMessage "hello world", .touchConversation,
        .runProcessPrompt "hello world", .setConversationTitle "hello world"],
       .blocked403 (some "SECURITY_VIOLATION") (some "A")) ∧
    titleSetBeforePipeline
      (chatHandler (fun s => s) c10Body (some c10Conv) c10Blocked).1 = false ∧
    (chatHandler (fun s => s) c10Body (some c10Conv) c10Blocked).1.contains
      (.setConversationTitle "hello world") = true := by
  refine ⟨by decide, by decide, by decide⟩

/-- C10 amended: the handler persists the user message *before* running
the prompt pipeline; when the conversation has no title, the derived
title is persisted *after* the pipeline runs but still before the 403
response is produced. Hence when the pipeline fails the endpoint answers
403 with the user message row and the derived title already persisted —
the blocked request is not atomic with respect to conversation state. -/
theorem chat_blocked_persistence_amended (deriveTitle : String → String)
    (body : ChatRequestBody) (cid : String) (conv : Conversation)
    (promptResult : PipelineResultS)
    (hmsg : (jsTrim body.message).length ≠ 0)
    (hcid : body.conversationId = some cid)
    (htitle : hasConversationTitle conv.title = false)
    (hfail : promptResult.success = false) :
    chatHandler deriveTitle body (some conv) promptResult =
      ([.createUserMessage (jsTrim body.message), .touchConversation,
        .runProcessPrompt (jsTrim body.message),
        .setConversationTitle (deriveTitle (jsTrim body.message))],
       .blocked403 (promptResult.error.map (·.code))
         (promptResult.error.map (·.pluginId))) := by
  rw [chatHandler]
  simp only [hcid, hmsg, htitle, hfail, if_neg, Bool.not_false, if_pos,
    Bool.false_eq_true, not_false_eq_true, ite_false, ite_true]
  simp

/-- Witness for C10's amended statement at the concrete blocked
request. -/
theorem chat_blocked_persistence_amended_witness :
    chatHandler (fun s => s) c10Body (some c10Conv) c10Blocked =
      ([.createUserMessage (jsTrim c10Body.message), .touchConversation,
        .runProcessPrompt (jsTrim c10Body.message),
        .setConversationTitle (jsTrim c10Body.message)],
       .blocked403 (c10Blocked.error.map (·.code))
         (c10Blocked.error.map (·.pluginId))) :=
  chat_blocked_persistence_amended (fun s => s) c10Body "c1" c10Conv c10Blocked
    (by decide) rfl (by decide) rfl

end Frontclaw
